import Mathlib

/-!
# Verification of the trading-engine ingest core

Shallow embedding of the reliability pipeline of the repository
(src/packet_manager.hpp, src/spsc_queue.hpp, src/feed_handler_impl.hpp,
src/types.hpp) together with theorems settling the specification claims.

Machine integers (`uint64_t`, `size_t`) are modelled as `Nat`.  All
subtractions performed by the embedded code happen, in the states the
theorems quantify over, on operands where the C++ unsigned subtraction
does not wrap, so `Nat` truncated subtraction coincides with it; the
loop of `get_ready_packets` is embedded with an explicit fuel equal to
the buffer size, which is an upper bound on its iteration count because
every iteration erases one buffer entry.
-/

namespace HFT

/-- Feed state machine (src/packet_manager.hpp, `enum class FeedState`). -/
inductive FeedState where
  | INITIAL
  | RECOVERING
  | LIVE
  | STALE
deriving DecidableEq, Repr

/-- Gap recovery request (src/packet_manager.hpp, `struct GapFillRequest`). -/
structure GapFillRequest where
  start_seq : Nat
  end_seq : Nat
  request_time_ns : Nat
  retry_count : Nat
deriving DecidableEq, Repr

/-- Statistics counters (src/packet_manager.hpp, `struct Stats`). -/
structure Stats where
  total_packets : Nat := 0
  duplicates : Nat := 0
  gaps_detected : Nat := 0
  gaps_filled : Nat := 0
  out_of_order : Nat := 0
  resequenced : Nat := 0
  dropped_overflow : Nat := 0
deriving DecidableEq, Repr

/-- `DUPLICATE_WINDOW_SIZE` (src/packet_manager.hpp). -/
def DUPLICATE_WINDOW_SIZE : Nat := 10000

/-- `MAX_RESEQUENCE_BUFFER_SIZE` (src/packet_manager.hpp). -/
def MAX_RESEQUENCE_BUFFER_SIZE : Nat := 1000

/-- `MAX_GAP_SIZE` (src/packet_manager.hpp). -/
def MAX_GAP_SIZE : Nat := 1000

/-- `GAP_TIMEOUT_NS` (src/packet_manager.hpp). -/
def GAP_TIMEOUT_NS : Nat := 1000000000

/-- `MAX_RETRIES` (src/packet_manager.hpp). -/
def MAX_RETRIES : Nat := 3

/-- State of `class PacketManager` (src/packet_manager.hpp).

`recent_sequences_` (a `std::deque`, front = oldest) is a `List Nat` with
head = oldest; `recent_seq_set_` (a `std::unordered_set`) is a `List Nat`
holding the same elements; `resequence_buffer_` (a `std::map`, ordered by
key, unique keys) is a key-sorted association list; `pending_gaps_` (a
`std::vector`) is a `List` in push order.  The field `emitted` records, in
order, the `GapFillRequest`s passed to `gap_fill_callback_` (the callback
is always installed by `FeedHandler`'s constructor). -/
structure PacketManager where
  state : FeedState := FeedState.INITIAL
  next_expected_seq : Nat := 0
  highest_seq_seen : Nat := 0
  recent_sequences : List Nat := []
  recent_seq_set : List Nat := []
  resequence_buffer : List (Nat × List Nat) := []
  pending_gaps : List GapFillRequest := []
  stats : Stats := {}
  emitted : List GapFillRequest := []
deriving DecidableEq, Repr

namespace PacketManager

/-- `PacketManager::is_duplicate` — membership in `recent_seq_set_`. -/
def is_duplicate (pm : PacketManager) (sequence : Nat) : Bool :=
  pm.recent_seq_set.contains sequence

/-- `PacketManager::mark_seen` — insert into the set, push onto the back of
the deque, and when the deque exceeds `DUPLICATE_WINDOW_SIZE` pop the front
(oldest) element and erase it from the set. -/
def mark_seen (pm : PacketManager) (sequence : Nat) : PacketManager :=
  let set' := if pm.recent_seq_set.contains sequence then pm.recent_seq_set
              else pm.recent_seq_set ++ [sequence]
  let deque' := pm.recent_sequences ++ [sequence]
  if deque'.length > DUPLICATE_WINDOW_SIZE then
    match deque' with
    | [] => { pm with recent_sequences := [], recent_seq_set := set' }
    | old_seq :: rest =>
        { pm with
            recent_sequences := rest
            recent_seq_set := set'.filter (fun x => x != old_seq) }
  else
    { pm with recent_sequences := deque', recent_seq_set := set' }

/-- Insertion into the key-sorted association list modelling the
`std::map` assignment `resequence_buffer_[sequence] = packet_copy`
(insert-or-overwrite). -/
def mapInsert : List (Nat × List Nat) → Nat → List Nat → List (Nat × List Nat)
  | [], k, v => [(k, v)]
  | (k', v') :: rest, k, v =>
      if k < k' then (k, v) :: (k', v') :: rest
      else if k = k' then (k, v) :: rest
      else (k', v') :: mapInsert rest k v

/-- `resequence_buffer_.find(k)` on the association list. -/
def mapFind? (buf : List (Nat × List Nat)) (k : Nat) : Option (List Nat) :=
  (buf.find? (fun p => p.1 == k)).map Prod.snd

/-- `resequence_buffer_.erase(it)` for the entry with key `k` (keys are
unique, so filtering is the same as erasing the found iterator). -/
def mapErase (buf : List (Nat × List Nat)) (k : Nat) : List (Nat × List Nat) :=
  buf.filter (fun p => p.1 != k)

/-- `PacketManager::buffer_packet` — on a full buffer erase `begin()`
(the lowest key, i.e. the head of the sorted list) counting
`dropped_overflow`, then store the packet under its sequence. -/
def buffer_packet (pm : PacketManager) (sequence : Nat) (data : List Nat) :
    PacketManager :=
  let pm :=
    if pm.resequence_buffer.length ≥ MAX_RESEQUENCE_BUFFER_SIZE then
      { pm with
          resequence_buffer := pm.resequence_buffer.tail
          stats := { pm.stats with
            dropped_overflow := pm.stats.dropped_overflow + 1 } }
    else pm
  { pm with resequence_buffer := mapInsert pm.resequence_buffer sequence data }

/-- `PacketManager::process_gap_fill` — remove the pending request matching
`(start_seq, end_seq)`, bump `gaps_filled`, and return to `LIVE` when no
gap remains and the state is `RECOVERING`. -/
def process_gap_fill (pm : PacketManager) (start_seq end_seq : Nat) :
    PacketManager :=
  let pending' := pm.pending_gaps.filter
    (fun req => !(req.start_seq == start_seq && req.end_seq == end_seq))
  let pm := { pm with
                pending_gaps := pending'
                stats := { pm.stats with gaps_filled := pm.stats.gaps_filled + 1 } }
  if pm.pending_gaps = [] ∧ pm.state = FeedState.RECOVERING then
    { pm with state := FeedState.LIVE }
  else pm

/-- One step of `PacketManager::periodic_maintenance`'s `for` loop over
`pending_gaps_`: the accumulator carries the gaps already visited (with
their in-place mutations), the feed state, and the callback log. -/
def maintainGap (current_time_ns : Nat)
    (acc : List GapFillRequest × FeedState × List GapFillRequest)
    (gap : GapFillRequest) :
    List GapFillRequest × FeedState × List GapFillRequest :=
  let (gaps, st, em) := acc
  if current_time_ns - gap.request_time_ns > GAP_TIMEOUT_NS then
    if gap.retry_count < MAX_RETRIES then
      let gap' := { gap with
                      retry_count := gap.retry_count + 1
                      request_time_ns := current_time_ns }
      (gaps ++ [gap'], st, em ++ [gap'])
    else
      (gaps ++ [gap], FeedState.STALE, em)
  else
    (gaps ++ [gap], st, em)

/-- `PacketManager::periodic_maintenance`. -/
def periodic_maintenance (pm : PacketManager) (current_time_ns : Nat) :
    PacketManager :=
  let (gaps, st, em) :=
    pm.pending_gaps.foldl (maintainGap current_time_ns) ([], pm.state, pm.emitted)
  { pm with pending_gaps := gaps, state := st, emitted := em }

/-- `PacketManager::trigger_resync` — note it does not reset
`next_expected_seq_`. -/
def trigger_resync (pm : PacketManager) : PacketManager :=
  { pm with
      state := FeedState.INITIAL
      resequence_buffer := []
      pending_gaps := []
      recent_sequences := []
      recent_seq_set := [] }

/-- `PacketManager::handle_initial_state`. -/
def handle_initial_state (pm : PacketManager) (sequence : Nat) :
    Bool × PacketManager :=
  (true, { pm with next_expected_seq := sequence + 1, state := FeedState.LIVE })

/-- `PacketManager::handle_live_state`. -/
def handle_live_state (pm : PacketManager) (sequence : Nat) (data : List Nat)
    (timestamp : Nat) : Bool × PacketManager :=
  if sequence = pm.next_expected_seq then
    (true, { pm with next_expected_seq := pm.next_expected_seq + 1 })
  else if sequence < pm.next_expected_seq then
    (false, pm)
  else
    let gap_size := sequence - pm.next_expected_seq
    let pm := { pm with stats := { pm.stats with
                  gaps_detected := pm.stats.gaps_detected + 1 } }
    if gap_size > MAX_GAP_SIZE then
      (false, { pm with state := FeedState.STALE })
    else
      let gap_req : GapFillRequest :=
        { start_seq := pm.next_expected_seq
          end_seq := sequence - 1
          request_time_ns := timestamp
          retry_count := 0 }
      let pm := { pm with pending_gaps := pm.pending_gaps ++ [gap_req] }
      let pm := { pm with emitted := pm.emitted ++ [gap_req] }
      let pm := { pm with state := FeedState.RECOVERING }
      let pm :=
        if data.length > 0 then
          let pm := pm.buffer_packet sequence data
          { pm with stats := { pm.stats with
              out_of_order := pm.stats.out_of_order + 1 } }
        else pm
      (false, pm)

/-- `PacketManager::handle_recovering_state`. -/
def handle_recovering_state (pm : PacketManager) (sequence : Nat)
    (data : List Nat) : Bool × PacketManager :=
  if sequence = pm.next_expected_seq then
    let pm := { pm with next_expected_seq := pm.next_expected_seq + 1 }
    let pm := if pm.pending_gaps = [] then { pm with state := FeedState.LIVE }
              else pm
    (true, pm)
  else if sequence > pm.next_expected_seq then
    let pm :=
      if data.length > 0 then
        let pm := pm.buffer_packet sequence data
        { pm with stats := { pm.stats with
            out_of_order := pm.stats.out_of_order + 1 } }
      else pm
    (false, pm)
  else
    match pm.pending_gaps.find?
        (fun req => decide (req.start_seq ≤ sequence ∧ sequence ≤ req.end_seq)) with
    | some req =>
        if sequence = req.end_seq then
          (true, pm.process_gap_fill req.start_seq req.end_seq)
        else
          (true, pm)
    | none => (false, pm)

/-- `PacketManager::process_packet` — the main entry point. -/
def process_packet (pm : PacketManager) (sequence : Nat) (data : List Nat)
    (timestamp : Nat) : Bool × PacketManager :=
  let pm := { pm with stats := { pm.stats with
                total_packets := pm.stats.total_packets + 1 } }
  let pm := if sequence > pm.highest_seq_seen then
              { pm with highest_seq_seen := sequence }
            else pm
  if pm.is_duplicate sequence then
    (false, { pm with stats := { pm.stats with
        duplicates := pm.stats.duplicates + 1 } })
  else
    let pm := pm.mark_seen sequence
    match pm.state with
    | FeedState.INITIAL => pm.handle_initial_state sequence
    | FeedState.LIVE => pm.handle_live_state sequence data timestamp
    | FeedState.RECOVERING => pm.handle_recovering_state sequence data
    | FeedState.STALE => (false, pm)

/-- The `while` loop of `PacketManager::get_ready_packets`, with fuel: the
loop erases one buffer entry per iteration, so the initial buffer size
bounds its iteration count.  Returns the ready packets, the new
`next_expected_seq_`, the new buffer, and the new `resequenced` counter. -/
def drainLoop : Nat → Nat → List (Nat × List Nat) → Nat →
    List (List Nat) × Nat × List (Nat × List Nat) × Nat
  | 0, next, buf, res => ([], next, buf, res)
  | fuel + 1, next, buf, res =>
      if buf.isEmpty then ([], next, buf, res)
      else
        match mapFind? buf next with
        | none => ([], next, buf, res)
        | some v =>
            let buf' := mapErase buf next
            let (ready, n', b', r') := drainLoop fuel (next + 1) buf' (res + 1)
            (v :: ready, n', b', r')

/-- `PacketManager::get_ready_packets`. -/
def get_ready_packets (pm : PacketManager) :
    List (List Nat) × PacketManager :=
  let (ready, next', buf', res') :=
    drainLoop pm.resequence_buffer.length pm.next_expected_seq
      pm.resequence_buffer pm.stats.resequenced
  (ready, { pm with
              next_expected_seq := next'
              resequence_buffer := buf'
              stats := { pm.stats with resequenced := res' } })

/-- The ingest loop's per-packet step as exercised by `FeedHandler::run`
(src/feed_handler_impl.hpp lines 110-124): process the packet through the
manager, then drain the resequence buffer, collecting the delivered
payloads in order (the packet itself when `process_packet` returns true,
then the ready packets). -/
def runScenario (seqs : List Nat) (pm : PacketManager) :
    List (List Nat) × PacketManager :=
  seqs.foldl
    (fun acc seq =>
      let (ok, pm1) := acc.2.process_packet seq [seq] 0
      let (ready, pm2) := pm1.get_ready_packets
      (acc.1 ++ (if ok then [[seq]] else []) ++ ready, pm2))
    ([], pm)

end PacketManager

/-! ## Wire format sizes (src/types.hpp, packed structs) -/

/-- `sizeof(TradeMessage)`: 8+8+4+4+8+4+1+3 bytes (packed). -/
def sizeof_TradeMessage : Nat := 8 + 8 + 4 + 4 + 8 + 4 + 1 + 3

/-- `sizeof(QuoteMessage)`: 8+8+4+8+8+4+4+1+7 bytes (packed). -/
def sizeof_QuoteMessage : Nat := 8 + 8 + 4 + 8 + 8 + 4 + 4 + 1 + 7

/-- Size of the payload union of `MarketDataPacket`: the largest member,
`uint8_t raw_data[256]`. -/
def sizeof_payload_union : Nat :=
  max (max sizeof_TradeMessage sizeof_QuoteMessage) 256

/-- Size of the `MarketDataPacket` header fields:
`msg_type`(1) + `version`(1) + `payload_size`(2) + `packet_sequence`(8). -/
def sizeof_MarketDataPacket_header : Nat := 1 + 1 + 2 + 8

/-- `sizeof(MarketDataPacket)` (packed): header plus the full payload
union, 12 + 256 = 268 bytes. -/
def sizeof_MarketDataPacket : Nat :=
  sizeof_MarketDataPacket_header + sizeof_payload_union

/-- A received datagram: its raw bytes together with the header fields the
code would read from them (`packet_sequence`, `payload_size`). -/
structure Datagram where
  bytes : List Nat
  packet_sequence : Nat
  payload_size : Nat
deriving DecidableEq, Repr

namespace FeedHandler

/-- `FeedHandler::process_packet` (src/feed_handler_impl.hpp lines
150-182): datagrams shorter than `sizeof(MarketDataPacket)` are discarded
before the packet manager is consulted; otherwise the packet manager
decides.  Returns the new manager state and `none` when the length check
discarded the datagram, or `some should_process` with the manager's
verdict. -/
def process_packet (pm : PacketManager) (d : Datagram) (recv_tsc : Nat) :
    PacketManager × Option Bool :=
  if d.bytes.length < sizeof_MarketDataPacket then (pm, none)
  else
    let (ok, pm') := pm.process_packet d.packet_sequence d.bytes recv_tsc
    (pm', some ok)

/-- `MAINTENANCE_INTERVAL_NS` (src/feed_handler_impl.hpp). -/
def MAINTENANCE_INTERVAL_NS : Nat := 100000000

/-- Result of the non-blocking receive in `FeedHandler::run`:
`bytes_received > 0` (a datagram), `== 0` (empty), or `< 0` (error). -/
inductive RecvResult where
  | dgram (d : Datagram)
  | empty
  | err
deriving DecidableEq, Repr

/-- What the receive dispatch of one `FeedHandler::run` iteration does to
the loop: continue to the next iteration, or leave the loop. -/
inductive LoopAction where
  | cont
  | brk
deriving DecidableEq, Repr

/-- Why `FeedHandler::run` returned. -/
inductive ExitReason where
  | flagCleared
  | recvError
deriving DecidableEq, Repr

/-- Input to one iteration of `FeedHandler::run`: the value of the
cooperative `g_running` flag at the top of the iteration, the current
timestamp, and the result of the non-blocking receive. -/
structure IterInput where
  running : Bool
  now : Nat
  recv : RecvResult
deriving DecidableEq, Repr

/-- Loop-local state of `FeedHandler::run`. -/
structure LoopState where
  pm : PacketManager := {}
  last_maintenance : Nat := 0
deriving DecidableEq, Repr

/-- The branch structure of the receive dispatch in `FeedHandler::run`
(src/feed_handler_impl.hpp lines 110-134): positive and zero byte counts
continue the loop; a negative byte count logs and executes `break`. -/
def iterReceive : RecvResult → LoopAction
  | RecvResult.dgram _ => LoopAction.cont
  | RecvResult.empty => LoopAction.cont
  | RecvResult.err => LoopAction.brk

/-- The work of one `FeedHandler::run` iteration: periodic maintenance
when due, then packet processing and the drain on a received datagram
(logging and stats printing elided — they do not touch the manager or the
loop control). -/
def runStep (ls : LoopState) (i : IterInput) : LoopState :=
  let ls :=
    if i.now - ls.last_maintenance > MAINTENANCE_INTERVAL_NS then
      { pm := ls.pm.periodic_maintenance i.now, last_maintenance := i.now }
    else ls
  match i.recv with
  | RecvResult.dgram d =>
      let (pm1, _) := process_packet ls.pm d i.now
      let (_, pm2) := pm1.get_ready_packets
      { ls with pm := pm2 }
  | _ => ls

/-- The `while (g_running...)` loop of `FeedHandler::run`, driven by a
finite schedule of iteration inputs.  Returns `some reason` when the loop
returned during the schedule and `none` when it was still looping when the
schedule ran out. -/
def ingestRun : List IterInput → LoopState → Option ExitReason × LoopState
  | [], ls => (none, ls)
  | i :: rest, ls =>
      if i.running = false then (some ExitReason.flagCleared, ls)
      else
        let ls' := runStep ls i
        match iterReceive i.recv with
        | LoopAction.brk => (some ExitReason.recvError, ls')
        | LoopAction.cont => ingestRun rest ls'

end FeedHandler

/-! ## SPSC ring (src/spsc_queue.hpp)

The positions are `uint64_t`; they are modelled as `Nat`.  The `uint64_t`
subtractions in the fullness checks do not wrap on the states the
theorems quantify over (`cached_read_pos ≤ read_pos ≤ write_pos`, as
holds in every sequential producer/consumer execution), so `Nat`
truncated subtraction coincides with them. -/

/-- State of `SPSCQueue<T, Size>`: the backing array (as a function from
slot index), the producer position, the consumer position, and each
side's cached copy of the opposite position. -/
structure SPSCQueue (T : Type) (Size : Nat) where
  buffer : Nat → T
  write_pos : Nat := 0
  read_pos : Nat := 0
  cached_read_pos : Nat := 0
  cached_write_pos : Nat := 0

namespace SPSCQueue

/-- `SPSCQueue::try_push`: full when `next_write - cached_read_pos > Size`
even after refreshing `cached_read_pos` from `read_pos`; on success write
the item at `write & (Size-1)` and advance `write_pos`. -/
def try_push (q : SPSCQueue T Size) (item : T) : SPSCQueue T Size × Bool :=
  let current_write := q.write_pos
  let next_write := current_write + 1
  let (q, full) :=
    if next_write - q.cached_read_pos > Size then
      let q := { q with cached_read_pos := q.read_pos }
      (q, decide (next_write - q.cached_read_pos > Size))
    else (q, false)
  if full then (q, false)
  else
    ({ q with
        buffer := Function.update q.buffer (Nat.land current_write (Size - 1)) item
        write_pos := next_write }, true)

/-- `SPSCQueue::try_pop`: empty when `read_pos ≥ cached_write_pos` even
after refreshing `cached_write_pos` from `write_pos`; on success read the
item at `read & (Size-1)` and advance `read_pos`. -/
def try_pop (q : SPSCQueue T Size) : SPSCQueue T Size × Option T :=
  let current_read := q.read_pos
  let (q, isEmpty) :=
    if current_read ≥ q.cached_write_pos then
      let q := { q with cached_write_pos := q.write_pos }
      (q, decide (current_read ≥ q.cached_write_pos))
    else (q, false)
  if isEmpty then (q, none)
  else
    ({ q with read_pos := current_read + 1 },
      some (q.buffer (Nat.land current_read (Size - 1))))

/-- A freshly constructed queue (all positions zero-initialised). -/
def emptyQueue (Size : Nat) : SPSCQueue Nat Size :=
  { buffer := fun _ => 0 }

/-- `k` consecutive `try_push` calls of the same item (results of the
success flags discarded). -/
def iterPush (item : Nat) : Nat → SPSCQueue Nat Size → SPSCQueue Nat Size
  | 0, q => q
  | k + 1, q => ((iterPush item k q).try_push item).1

end SPSCQueue

/-- The representation invariant tying the two halves of the duplicate
window together: the `std::deque` holds distinct sequences and the
`std::unordered_set` holds exactly the deque's elements. -/
def PacketManager.WindowInv (pm : PacketManager) : Prop :=
  pm.recent_sequences.Nodup ∧
  ∀ x : Nat, x ∈ pm.recent_seq_set ↔ x ∈ pm.recent_sequences

/-! ## Concrete scenario states used by counterexamples and witnesses -/

/-- The packet manager after accepting 5 (Initial→Live, next_expected 6),
seeing the oversized jump to 2000 (Live→Stale), and an external
`trigger_resync()` (Stale→Initial; `next_expected_seq_` is not reset). -/
def c5_resync_chain : PacketManager :=
  ((({} : PacketManager).process_packet 5 [] 0).2.process_packet
      2000 [] 0).2.trigger_resync

/-- A packet manager holding buffered packets 3, 4 and 7 with
`next_expected = 3` — drain input for the C7 witness. -/
def c7_state : PacketManager :=
  { next_expected_seq := 3
    resequence_buffer := [(3, [30]), (4, [40]), (7, [70])] }

/-- The packet manager after the `1,2,5` ingest (one pending gap (3,4),
requested at time 0) followed by four maintenance ticks spaced beyond
`GAP_TIMEOUT_NS`. -/
def c9_scenario : PacketManager :=
  let pm := (PacketManager.runScenario [1, 2, 5] {}).2
  let pm := pm.periodic_maintenance 2000000000
  let pm := pm.periodic_maintenance 4000000000
  let pm := pm.periodic_maintenance 6000000000
  pm.periodic_maintenance 8000000000

/-! ## Theorems -/

/-- C1: the spec says the `1,2,5,3,4,6` scenario ends with
`gaps_filled = 1` and the feed back in `Live`, and in general that the
`Recovering` state returns to `Live` once the last outstanding gap's
missing sequences have arrived in-band and been flushed.  The code
delivers `1,2,3,4,5,6` in order with `gaps_detected = 1`,
`out_of_order = 1`, `resequenced = 1`, but the in-band arrivals of 3 and 4
never remove the pending request (3,4) — removal happens only in the
`sequence < next_expected` branch or through `process_gap_fill` — so
`gaps_filled` stays 0 and the feed is still `Recovering`, contradicting
the code's own "Gap was filled! … Check if all gaps filled" comments. -/
theorem c1_inband_gap_close_stuck_recovering :
    (PacketManager.runScenario [1, 2, 5, 3, 4, 6] {}).1 =
      [[1], [2], [3], [4], [5], [6]] ∧
    (PacketManager.runScenario [1, 2, 5, 3, 4, 6] {}).2.stats.gaps_detected = 1 ∧
    (PacketManager.runScenario [1, 2, 5, 3, 4, 6] {}).2.stats.out_of_order = 1 ∧
    (PacketManager.runScenario [1, 2, 5, 3, 4, 6] {}).2.stats.resequenced = 1 ∧
    (PacketManager.runScenario [1, 2, 5, 3, 4, 6] {}).2.stats.gaps_filled = 0 ∧
    (PacketManager.runScenario [1, 2, 5, 3, 4, 6] {}).2.state =
      FeedState.RECOVERING ∧
    (PacketManager.runScenario [1, 2, 5, 3, 4, 6] {}).2.pending_gaps =
      [{ start_seq := 3, end_seq := 4, request_time_ns := 0, retry_count := 0 }] := by
  decide

/-- C2 counterexample: with the running flag never cleared, a single
receive error makes `FeedHandler::run` return (the code executes `break`),
refuting "on error, log and continue; the loop returns only when the
running flag is cleared". -/
theorem c2_counterexample :
    (FeedHandler.ingestRun
      [{ running := true, now := 0, recv := FeedHandler.RecvResult.err }]
      {}).1 = some FeedHandler.ExitReason.recvError ∧
    FeedHandler.iterReceive FeedHandler.RecvResult.err ≠
      FeedHandler.LoopAction.cont := by
  decide

/-- C3 counterexample: after `1,2,2000` the feed is `Stale`, but the
recovery callback was never invoked (`emitted = []`): the oversized-gap
branch of `handle_live_state` sets `STALE` and returns without calling
`gap_fill_callback_`, refuting "emits a snapshot request via the recovery
callback".  The subsequent `3` is indeed dropped. -/
theorem c3_counterexample :
    (PacketManager.runScenario [1, 2, 2000] {}).1 = [[1], [2]] ∧
    (PacketManager.runScenario [1, 2, 2000] {}).2.state = FeedState.STALE ∧
    (PacketManager.runScenario [1, 2, 2000] {}).2.emitted = [] ∧
    ((PacketManager.runScenario [1, 2, 2000] {}).2.process_packet 3 [3] 0).1
      = false := by
  decide

/-- C4 counterexample: `process_gap_fill(1,2)` twice from the initial
state is not the same as once — the second call increments the
`gaps_filled` counter again. -/
theorem c4_counterexample :
    PacketManager.process_gap_fill (PacketManager.process_gap_fill {} 1 2) 1 2 ≠
      PacketManager.process_gap_fill {} 1 2 := by
  decide

/-- C5 counterexample: accept 5 (next_expected 6), jump to 2000 (Stale),
`trigger_resync()` (which does not reset `next_expected_seq_`), then
accept 1 in the Initial state: `next_expected_seq_` regresses from 6
to 2. -/
theorem c5_counterexample :
    c5_resync_chain.next_expected_seq = 6 ∧
    (c5_resync_chain.process_packet 1 [] 0).2.next_expected_seq = 2 ∧
    ¬(c5_resync_chain.next_expected_seq ≤
        (c5_resync_chain.process_packet 1 [] 0).2.next_expected_seq) := by
  decide

namespace PacketManager

/-! ### Helper lemmas: `mark_seen` touches only the duplicate window -/

theorem mark_seen_state (pm : PacketManager) (seq : Nat) :
    (pm.mark_seen seq).state = pm.state := by
  simp only [mark_seen]
  split
  · split <;> rfl
  · rfl

theorem mark_seen_next (pm : PacketManager) (seq : Nat) :
    (pm.mark_seen seq).next_expected_seq = pm.next_expected_seq := by
  simp only [mark_seen]
  split
  · split <;> rfl
  · rfl

theorem mark_seen_stats (pm : PacketManager) (seq : Nat) :
    (pm.mark_seen seq).stats = pm.stats := by
  simp only [mark_seen]
  split
  · split <;> rfl
  · rfl

theorem mark_seen_emitted (pm : PacketManager) (seq : Nat) :
    (pm.mark_seen seq).emitted = pm.emitted := by
  simp only [mark_seen]
  split
  · split <;> rfl
  · rfl

theorem mark_seen_pending (pm : PacketManager) (seq : Nat) :
    (pm.mark_seen seq).pending_gaps = pm.pending_gaps := by
  simp only [mark_seen]
  split
  · split <;> rfl
  · rfl

theorem mark_seen_buffer (pm : PacketManager) (seq : Nat) :
    (pm.mark_seen seq).resequence_buffer = pm.resequence_buffer := by
  simp only [mark_seen]
  split
  · split <;> rfl
  · rfl

/-! ### Helper lemmas: next_expected monotonicity of the handlers -/

theorem filter_idem (l : List α) (p : α → Bool) :
    (l.filter p).filter p = l.filter p := by
  induction l with
  | nil => rfl
  | cons x xs ih =>
      by_cases h : p x = true <;> simp [List.filter, h, ih]

theorem buffer_packet_next (pm : PacketManager) (seq : Nat) (data : List Nat) :
    (pm.buffer_packet seq data).next_expected_seq = pm.next_expected_seq := by
  simp only [buffer_packet]; split_ifs <;> rfl

theorem handle_live_next_ge (pm : PacketManager) (seq : Nat) (data : List Nat)
    (ts : Nat) :
    pm.next_expected_seq ≤ (pm.handle_live_state seq data ts).2.next_expected_seq := by
  simp only [handle_live_state]
  split_ifs <;> simp [buffer_packet_next]

theorem process_gap_fill_next (pm : PacketManager) (s e : Nat) :
    (pm.process_gap_fill s e).next_expected_seq = pm.next_expected_seq := by
  simp only [process_gap_fill]; split_ifs <;> rfl

theorem handle_recovering_next_ge (pm : PacketManager) (seq : Nat)
    (data : List Nat) :
    pm.next_expected_seq ≤
      (pm.handle_recovering_state seq data).2.next_expected_seq := by
  simp only [handle_recovering_state]
  split_ifs <;> try simp [buffer_packet_next]
  split
  · split_ifs <;> simp [process_gap_fill_next]
  · simp

theorem drainLoop_next_ge (fuel : Nat) :
    ∀ (next : Nat) (buf : List (Nat × List Nat)) (res : Nat),
      next ≤ (drainLoop fuel next buf res).2.1 := by
  induction fuel with
  | zero => intro next buf res; simp [drainLoop]
  | succ n ih =>
      intro next buf res
      simp only [drainLoop]
      split_ifs with h1
      · simp
      · rcases h2 : mapFind? buf next with _ | v
        · simp
        · rcases hdl : drainLoop n (next + 1) (mapErase buf next) (res + 1)
            with ⟨ready, n', b', r'⟩
          have := ih (next + 1) (mapErase buf next) (res + 1)
          rw [hdl] at this
          simp only [hdl]
          simpa using Nat.le_of_succ_le this

theorem get_ready_packets_next_ge (pm : PacketManager) :
    pm.next_expected_seq ≤ (pm.get_ready_packets).2.next_expected_seq := by
  have h := drainLoop_next_ge pm.resequence_buffer.length pm.next_expected_seq
    pm.resequence_buffer pm.stats.resequenced
  rcases hdl : drainLoop pm.resequence_buffer.length pm.next_expected_seq
      pm.resequence_buffer pm.stats.resequenced with ⟨ready, n', b', r'⟩
  rw [hdl] at h
  simp only [get_ready_packets, hdl]
  simpa using h

theorem periodic_maintenance_next (pm : PacketManager) (t : Nat) :
    (pm.periodic_maintenance t).next_expected_seq = pm.next_expected_seq := by
  rcases hf : pm.pending_gaps.foldl (maintainGap t) ([], pm.state, pm.emitted)
    with ⟨gaps, st, em⟩
  simp [periodic_maintenance, hf]

theorem trigger_resync_next (pm : PacketManager) :
    (pm.trigger_resync).next_expected_seq = pm.next_expected_seq := rfl

theorem process_packet_next_ge (pm : PacketManager) (seq : Nat)
    (data : List Nat) (ts : Nat) (h : pm.state ≠ FeedState.INITIAL) :
    pm.next_expected_seq ≤ (pm.process_packet seq data ts).2.next_expected_seq := by
  by_cases hd : seq ∈ pm.recent_seq_set <;>
  cases hst : pm.state <;>
  simp_all [process_packet, is_duplicate, mark_seen_next, mark_seen_state,
    apply_ite] <;>
  first
    | exact le_trans (le_of_eq (by simp [mark_seen_next, apply_ite]))
        (handle_live_next_ge _ _ _ _)
    | exact le_trans (le_of_eq (by simp [mark_seen_next, apply_ite]))
        (handle_recovering_next_ge _ _ _)

theorem process_packet_initial_next (pm : PacketManager) (seq : Nat)
    (data : List Nat) (ts : Nat) (h : pm.state = FeedState.INITIAL) :
    (pm.process_packet seq data ts).2.next_expected_seq = pm.next_expected_seq ∨
    (pm.process_packet seq data ts).2.next_expected_seq = seq + 1 := by
  by_cases hd : seq ∈ pm.recent_seq_set <;>
  simp_all [process_packet, is_duplicate, mark_seen_next, mark_seen_state,
    handle_initial_state, apply_ite]

end PacketManager

/-- C3 (amended): in the `Live` state an incoming non-duplicate sequence
whose distance from `next_expected` exceeds `MAX_GAP` makes
`process_packet` transition to `Stale`, count the gap, and return drop —
but *without* invoking the recovery callback (the snapshot request is a
production TODO in the source); every packet processed while `Stale` is
dropped with the state unchanged, until `trigger_resync()` returns the
manager to `Initial`. -/
theorem c3_amended_oversized_gap_stale :
    (∀ (pm : PacketManager) (seq : Nat) (data : List Nat) (ts : Nat),
        pm.state = FeedState.LIVE →
        pm.is_duplicate seq = false →
        seq - pm.next_expected_seq > MAX_GAP_SIZE →
        (pm.process_packet seq data ts).1 = false ∧
        (pm.process_packet seq data ts).2.state = FeedState.STALE ∧
        (pm.process_packet seq data ts).2.emitted = pm.emitted ∧
        (pm.process_packet seq data ts).2.stats.gaps_detected
          = pm.stats.gaps_detected + 1) ∧
    (∀ (pm : PacketManager) (seq : Nat) (data : List Nat) (ts : Nat),
        pm.state = FeedState.STALE →
        (pm.process_packet seq data ts).1 = false ∧
        (pm.process_packet seq data ts).2.state = FeedState.STALE) ∧
    (∀ pm : PacketManager, pm.trigger_resync.state = FeedState.INITIAL) := by
  refine ⟨?_, ?_, fun pm => rfl⟩
  · intro pm seq data ts hstate hdup hgap
    have hne : ¬(seq = pm.next_expected_seq) := by
      simp only [MAX_GAP_SIZE] at hgap; omega
    have hnlt : ¬(seq < pm.next_expected_seq) := by
      simp only [MAX_GAP_SIZE] at hgap; omega
    have hdup' : pm.recent_seq_set.contains seq = false := hdup
    have hmem : seq ∉ pm.recent_seq_set := by simpa using hdup'
    by_cases hh : seq > pm.highest_seq_seen <;>
      simp [PacketManager.process_packet, PacketManager.is_duplicate, hh, hmem,
        PacketManager.mark_seen_state, PacketManager.mark_seen_next,
        PacketManager.mark_seen_stats, PacketManager.mark_seen_emitted,
        hstate, hne, hnlt, hgap, PacketManager.handle_live_state]
  · intro pm seq data ts hstate
    by_cases hd : seq ∈ pm.recent_seq_set <;>
      simp_all [PacketManager.process_packet, PacketManager.is_duplicate,
        PacketManager.mark_seen_state, apply_ite]

/-- C3 witness: a concrete Live state with `next_expected = 3` receiving
sequence 2000 (distance 1997 > 1000) drops it, goes `Stale`, emits
nothing, and counts the gap. -/
theorem c3_amended_witness :
    (({ state := FeedState.LIVE, next_expected_seq := 3 } :
        PacketManager).process_packet 2000 [] 0).1 = false ∧
    (({ state := FeedState.LIVE, next_expected_seq := 3 } :
        PacketManager).process_packet 2000 [] 0).2.state = FeedState.STALE ∧
    (({ state := FeedState.LIVE, next_expected_seq := 3 } :
        PacketManager).process_packet 2000 [] 0).2.emitted =
      ({ state := FeedState.LIVE, next_expected_seq := 3 } :
        PacketManager).emitted ∧
    (({ state := FeedState.LIVE, next_expected_seq := 3 } :
        PacketManager).process_packet 2000 [] 0).2.stats.gaps_detected =
      ({ state := FeedState.LIVE, next_expected_seq := 3 } :
        PacketManager).stats.gaps_detected + 1 :=
  c3_amended_oversized_gap_stale.1 _ 2000 [] 0 rfl rfl (by decide)

/-- C4 (amended): `process_gap_fill(s, e)` twice leaves the pending gaps,
feed state, and buffers identical to calling it once, but the second call
is *not* a state no-op: it increments the `gaps_filled` counter again
(the increment is unconditional in the source). -/
theorem c4_amended_gap_fill_idempotent_except_counter :
    ∀ (pm : PacketManager) (s e : Nat),
      (pm.process_gap_fill s e).process_gap_fill s e =
        { pm.process_gap_fill s e with
            stats := { (pm.process_gap_fill s e).stats with
              gaps_filled := (pm.process_gap_fill s e).stats.gaps_filled + 1 } } := by
  intro pm s e
  simp only [PacketManager.process_gap_fill]
  split_ifs <;> simp_all [PacketManager.filter_idem]

/-- C5 (amended): `next_expected` never decreases under
`get_ready_packets`, `process_gap_fill`, `periodic_maintenance`,
`trigger_resync`, or `process_packet` outside the `Initial` state; in the
`Initial` state (entered at startup or after `trigger_resync`, which does
not reset `next_expected_seq_`) a processed packet either leaves it
unchanged (duplicate) or re-anchors it to `seq + 1`, which may be lower —
the only regression the code allows. -/
theorem c5_amended_next_expected_monotone :
    (∀ pm : PacketManager,
        pm.next_expected_seq ≤ (pm.get_ready_packets).2.next_expected_seq) ∧
    (∀ (pm : PacketManager) (s e : Nat),
        (pm.process_gap_fill s e).next_expected_seq = pm.next_expected_seq) ∧
    (∀ (pm : PacketManager) (t : Nat),
        (pm.periodic_maintenance t).next_expected_seq = pm.next_expected_seq) ∧
    (∀ pm : PacketManager,
        pm.trigger_resync.next_expected_seq = pm.next_expected_seq) ∧
    (∀ (pm : PacketManager) (seq : Nat) (data : List Nat) (ts : Nat),
        pm.state ≠ FeedState.INITIAL →
        pm.next_expected_seq ≤ (pm.process_packet seq data ts).2.next_expected_seq) ∧
    (∀ (pm : PacketManager) (seq : Nat) (data : List Nat) (ts : Nat),
        pm.state = FeedState.INITIAL →
        (pm.process_packet seq data ts).2.next_expected_seq
            = pm.next_expected_seq ∨
        (pm.process_packet seq data ts).2.next_expected_seq = seq + 1) :=
  ⟨PacketManager.get_ready_packets_next_ge,
   PacketManager.process_gap_fill_next,
   PacketManager.periodic_maintenance_next,
   PacketManager.trigger_resync_next,
   PacketManager.process_packet_next_ge,
   PacketManager.process_packet_initial_next⟩

/-- C5 witness: from the Live state reached by accepting packet 5,
processing packet 7 does not decrease `next_expected`. -/
theorem c5_amended_witness :
    (({} : PacketManager).process_packet 5 [] 0).2.state ≠ FeedState.INITIAL ∧
    (({} : PacketManager).process_packet 5 [] 0).2.next_expected_seq ≤
      ((({} : PacketManager).process_packet 5 [] 0).2.process_packet
          7 [] 0).2.next_expected_seq :=
  ⟨by decide, c5_amended_next_expected_monotone.2.2.2.2.1 _ 7 [] 0 (by decide)⟩


namespace SPSCQueue

/-- `try_push` returns false exactly when the (refreshed) occupancy
`write_pos - read_pos` has reached `Size`, on any state satisfying the
sequential producer/consumer invariant. -/
theorem try_push_flag_iff (T : Type) (Size : Nat) (q : SPSCQueue T Size)
    (item : T) (h1 : q.cached_read_pos ≤ q.read_pos)
    (h2 : q.read_pos ≤ q.write_pos) :
    (q.try_push item).2 = false ↔ q.write_pos - q.read_pos ≥ Size := by
  simp only [try_push]
  dsimp only
  split_ifs with hc hfull <;> simp_all <;> omega

/-- After `k ≤ Size` pushes from a fresh queue: `write_pos = k` and the
consumer-side fields are untouched. -/
theorem iterPush_state (Size : Nat) (item : Nat) :
    ∀ k, k ≤ Size →
      (iterPush item k (emptyQueue Size) : SPSCQueue Nat Size).write_pos = k ∧
      (iterPush item k (emptyQueue Size)).read_pos = 0 ∧
      (iterPush item k (emptyQueue Size)).cached_read_pos = 0 ∧
      (iterPush item k (emptyQueue Size)).cached_write_pos = 0 := by
  intro k
  induction k with
  | zero => intro h; exact ⟨rfl, rfl, rfl, rfl⟩
  | succ n ih =>
      intro h
      obtain ⟨hw, hr, hcr, hcw⟩ := ih (Nat.le_of_succ_le h)
      simp only [iterPush, try_push, hw, hr, hcr, hcw]
      rw [if_neg (by omega : ¬(n + 1 - 0 > Size))]
      simp [hr, hcr, hcw]

/-- The capacity boundary: `Size` pushes succeed, the next fails, one pop
frees exactly one slot. -/
theorem push_pop_boundary (Size : Nat) (item : Nat) (hS : 0 < Size) :
    (∀ k, k < Size →
        ((iterPush item k (emptyQueue Size)).try_push item).2 = true) ∧
    ((iterPush item Size (emptyQueue Size)).try_push item).2 = false ∧
    ((iterPush item Size (emptyQueue Size)).try_pop).2.isSome = true ∧
    (((iterPush item Size (emptyQueue Size)).try_pop).1.try_push item).2 = true ∧
    ((((iterPush item Size (emptyQueue Size)).try_pop).1.try_push
        item).1.try_push item).2 = false := by
  obtain ⟨hw, hr, hcr, hcw⟩ := iterPush_state Size item Size le_rfl
  refine ⟨?_, ?_, ?_, ?_, ?_⟩
  · intro k hk
    obtain ⟨hw', hr', hcr', hcw'⟩ := iterPush_state Size item k (Nat.le_of_lt hk)
    simp only [try_push, hw', hr', hcr']
    rw [if_neg (by omega : ¬(k + 1 - 0 > Size))]
    simp
  · simp only [try_push, hw, hr, hcr]
    rw [if_pos (by omega : Size + 1 - 0 > Size)]
    dsimp only
    rw [if_pos (by simp only [decide_eq_true_eq]; omega : decide (Size + 1 - 0 > Size) = true)]
  · simp only [try_pop, hw, hr, hcw]
    rw [if_pos (by omega : (0:Nat) ≥ 0)]
    dsimp only
    rw [if_neg (by simp only [decide_eq_true_eq]; omega : ¬(decide ((0:Nat) ≥ Size) = true))]
    rfl
  · simp only [try_pop, try_push, hw, hr, hcr, hcw]
    rw [if_pos (by omega : (0:Nat) ≥ 0)]
    dsimp only
    rw [if_neg (by simp only [decide_eq_true_eq]; omega : ¬(decide ((0:Nat) ≥ Size) = true))]
    dsimp only
    rw [if_pos (by omega : Size + 1 - 0 > Size)]
    dsimp only
    rw [if_neg (by simp only [decide_eq_true_eq]; omega : ¬(decide (Size + 1 - (0 + 1) > Size) = true))]
  · simp only [try_pop, try_push, hw, hr, hcr, hcw]
    rw [if_pos (by omega : (0:Nat) ≥ 0)]
    dsimp only
    rw [if_neg (by simp only [decide_eq_true_eq]; omega : ¬(decide ((0:Nat) ≥ Size) = true))]
    dsimp only
    rw [if_pos (by omega : Size + 1 - 0 > Size)]
    dsimp only
    rw [if_neg (by simp only [decide_eq_true_eq]; omega : ¬(decide (Size + 1 - (0 + 1) > Size) = true))]
    dsimp only
    rw [if_pos (by omega : Size + 1 + 1 - (0 + 1) > Size)]
    dsimp only
    rw [if_pos (by simp only [decide_eq_true_eq]; omega : decide (Size + 1 + 1 - (0 + 1) > Size) = true)]

end SPSCQueue


namespace PacketManager

/-! ### Helper lemmas: the resequence-buffer map and the drain loop -/

theorem length_filter_lt_of_mem {α : Type} {l : List α} {p : α → Bool} {x : α}
    (hx : x ∈ l) (hpx : p x = false) : (l.filter p).length < l.length := by
  induction l with
  | nil => cases hx
  | cons a l ih =>
      rcases List.mem_cons.mp hx with rfl | hx'
      · simp only [List.filter, hpx]
        exact Nat.lt_succ_of_le (List.length_filter_le p l)
      · by_cases ha : p a = true
        · simp only [List.filter, ha]
          exact Nat.succ_lt_succ (ih hx')
        · simp only [List.filter, Bool.of_not_eq_true ha]
          exact Nat.lt_succ_of_lt (ih hx')

theorem mapFind?_eq_none_iff (buf : List (Nat × List Nat)) (k : Nat) :
    mapFind? buf k = none ↔ k ∉ buf.map Prod.fst := by
  unfold mapFind?
  rw [Option.map_eq_none', List.find?_eq_none]
  simp only [beq_iff_eq, List.mem_map, not_exists]
  constructor
  · rintro h p ⟨hp, hpk⟩
    exact h p hp hpk
  · intro h p hp hpk
    exact h p ⟨hp, hpk⟩

theorem mapFind?_mem_of_some {buf : List (Nat × List Nat)} {k : Nat}
    {v : List Nat} (h : mapFind? buf k = some v) : k ∈ buf.map Prod.fst := by
  by_contra hk
  rw [← mapFind?_eq_none_iff] at hk
  rw [h] at hk
  cases hk

theorem mem_keys_mapErase (buf : List (Nat × List Nat)) (k x : Nat) :
    x ∈ (mapErase buf k).map Prod.fst ↔ x ∈ buf.map Prod.fst ∧ x ≠ k := by
  simp only [mapErase, List.mem_map, List.mem_filter, bne_iff_ne]
  constructor
  · rintro ⟨p, ⟨hp, hpk⟩, rfl⟩
    exact ⟨⟨p, hp, rfl⟩, hpk⟩
  · rintro ⟨⟨p, hp, rfl⟩, hxk⟩
    exact ⟨p, ⟨hp, hxk⟩, rfl⟩

theorem mapFind?_mapErase_ne (buf : List (Nat × List Nat)) (k x : Nat)
    (h : x ≠ k) : mapFind? (mapErase buf k) x = mapFind? buf x := by
  induction buf with
  | nil => rfl
  | cons p rest ih =>
      by_cases hpk : p.1 = k
      · have h1 : (p.1 != k) = false := by simp [hpk]
        have h2 : (p.1 == x) = false := by
          simp only [beq_eq_false_iff_ne, ne_eq, hpk]
          exact fun hx => h hx.symm
        simp only [mapErase, List.filter_cons, h1, if_neg] at *
        simp only [mapFind?, List.find?_cons, h2] at *
        simpa using ih
      · have h1 : (p.1 != k) = true := by simp [hpk]
        by_cases hpx : p.1 = x
        · have h2 : (p.1 == x) = true := by simp [hpx]
          simp only [mapErase, List.filter_cons, h1, if_pos]
          simp only [mapFind?, List.find?_cons, h2]
        · have h2 : (p.1 == x) = false := by simp [hpx]
          simp only [mapErase, List.filter_cons, h1, if_pos] at *
          simp only [mapFind?, List.find?_cons, h2] at *
          exact ih

theorem mapErase_length_lt {buf : List (Nat × List Nat)} {k : Nat}
    {v : List Nat} (h : mapFind? buf k = some v) :
    (mapErase buf k).length < buf.length := by
  have hk := mapFind?_mem_of_some h
  rcases List.mem_map.mp hk with ⟨p, hp, hpk⟩
  exact length_filter_lt_of_mem hp (by simp [bne_iff_ne, hpk])

/-- Full characterisation of the drain loop: it returns the packets of the
maximal consecutive run starting at `next`, advances `next` and the
`resequenced` counter by the run length, and removes exactly the run from
the buffer. -/
theorem drainLoop_spec (fuel : Nat) :
    ∀ (next : Nat) (buf : List (Nat × List Nat)) (res : Nat),
      buf.length ≤ fuel →
      ∃ k : Nat,
        (∀ i, i < k → (next + i) ∈ buf.map Prod.fst) ∧
        ((next + k) ∉ buf.map Prod.fst) ∧
        drainLoop fuel next buf res =
          ((List.range k).map (fun i => (mapFind? buf (next + i)).getD []),
            next + k,
            buf.filter (fun p => decide (p.1 < next ∨ next + k ≤ p.1)),
            res + k) := by
  induction fuel with
  | zero =>
      intro next buf res hlen
      have hbuf : buf = [] := List.eq_nil_of_length_eq_zero (Nat.le_zero.mp hlen)
      subst hbuf
      exact ⟨0, by simp, by simp, by simp [drainLoop]⟩
  | succ n ih =>
      intro next buf res hlen
      by_cases hbe : buf.isEmpty = true
      · have hbuf : buf = [] := List.isEmpty_iff.mp hbe
        subst hbuf
        exact ⟨0, by simp, by simp, by simp [drainLoop]⟩
      · have hbe' : buf.isEmpty = false := Bool.not_eq_true _ ▸ hbe
        rcases hfind : mapFind? buf next with _ | v
        · refine ⟨0, by simp, ?_, ?_⟩
          · simpa using (mapFind?_eq_none_iff buf next).mp hfind
          · have hfilter : buf.filter
                (fun p => decide (p.1 < next ∨ next + 0 ≤ p.1)) = buf := by
              apply List.filter_eq_self.mpr
              intro p hp
              simp only [decide_eq_true_eq]
              omega
            simp only [drainLoop, hbe', hfind]
            rw [hfilter]
            simp
        · have hlen' : (mapErase buf next).length ≤ n := by
            have := mapErase_length_lt hfind
            omega
          obtain ⟨k', h1', h2', h3'⟩ := ih (next + 1) (mapErase buf next) (res + 1) hlen'
          refine ⟨k' + 1, ?_, ?_, ?_⟩
          · intro i hi
            cases i with
            | zero =>
                simpa using mapFind?_mem_of_some hfind
            | succ j =>
                have hj := h1' j (by omega)
                have hmem := (mem_keys_mapErase buf next (next + 1 + j)).mp hj
                have harith : next + (j + 1) = next + 1 + j := by omega
                rw [harith]
                exact hmem.1
          · intro hmem
            have hne : next + (k' + 1) ≠ next := by omega
            have hmem' : next + (k' + 1) ∈ (mapErase buf next).map Prod.fst :=
              (mem_keys_mapErase buf next _).mpr ⟨hmem, hne⟩
            have harith : next + (k' + 1) = next + 1 + k' := by omega
            rw [harith] at hmem'
            exact h2' hmem'
          · rcases hdl : drainLoop n (next + 1) (mapErase buf next) (res + 1)
              with ⟨ready, n', b', r'⟩
            rw [hdl] at h3'
            simp only [Prod.mk.injEq] at h3'
            obtain ⟨hready, hnext, hbuf, hres⟩ := h3'
            simp only [drainLoop, hbe', hfind, hdl, Bool.false_eq_true, if_false]
            simp only [Prod.mk.injEq]
            refine ⟨?_, by omega, ?_, by omega⟩
            · rw [hready, List.range_succ_eq_map]
              simp only [List.map_cons, List.map_map]
              refine List.cons_eq_cons.mpr ⟨?_, ?_⟩
              · rw [Nat.add_zero, hfind]
                rfl
              · apply List.map_congr_left
                intro i hi
                simp only [Function.comp]
                have harith : next + (Nat.succ i) = next + 1 + i := by omega
                rw [harith,
                  mapFind?_mapErase_ne buf next (next + 1 + i) (by omega)]
            · rw [hbuf]
              simp only [mapErase, List.filter_filter]
              apply List.filter_congr
              intro p hp
              rw [Bool.eq_iff_iff]
              simp only [Bool.and_eq_true, decide_eq_true_eq, bne_iff_ne]
              omega

/-! ### Helper lemmas: the duplicate window through `process_packet` -/

theorem buffer_packet_window (pm : PacketManager) (seq : Nat) (data : List Nat) :
    (pm.buffer_packet seq data).recent_sequences = pm.recent_sequences ∧
    (pm.buffer_packet seq data).recent_seq_set = pm.recent_seq_set := by
  simp only [buffer_packet]; split_ifs <;> exact ⟨rfl, rfl⟩

theorem process_gap_fill_window (pm : PacketManager) (s e : Nat) :
    (pm.process_gap_fill s e).recent_sequences = pm.recent_sequences ∧
    (pm.process_gap_fill s e).recent_seq_set = pm.recent_seq_set := by
  simp only [process_gap_fill]; split_ifs <;> exact ⟨rfl, rfl⟩

theorem handle_live_window (pm : PacketManager) (seq : Nat) (data : List Nat)
    (ts : Nat) :
    (pm.handle_live_state seq data ts).2.recent_sequences = pm.recent_sequences ∧
    (pm.handle_live_state seq data ts).2.recent_seq_set = pm.recent_seq_set := by
  simp only [handle_live_state]
  split_ifs <;>
    simp [buffer_packet_window pm seq data,
      (buffer_packet_window _ _ _).1, (buffer_packet_window _ _ _).2]

theorem handle_recovering_window (pm : PacketManager) (seq : Nat)
    (data : List Nat) :
    (pm.handle_recovering_state seq data).2.recent_sequences
        = pm.recent_sequences ∧
    (pm.handle_recovering_state seq data).2.recent_seq_set
        = pm.recent_seq_set := by
  simp only [handle_recovering_state]
  split_ifs <;>
    try simp [(buffer_packet_window _ _ _).1, (buffer_packet_window _ _ _).2]
  split
  · split_ifs <;>
      simp [(process_gap_fill_window _ _ _).1, (process_gap_fill_window _ _ _).2]
  · simp

theorem handle_live_stats_dup (pm : PacketManager) (seq : Nat) (data : List Nat)
    (ts : Nat) :
    (pm.handle_live_state seq data ts).2.stats.duplicates
      = pm.stats.duplicates := by
  have hb : ∀ (q : PacketManager) (s : Nat) (d : List Nat),
      (q.buffer_packet s d).stats.duplicates = q.stats.duplicates := by
    intro q s d
    simp only [buffer_packet]; split_ifs <;> rfl
  simp only [handle_live_state]
  split_ifs <;> simp [hb]

theorem handle_recovering_stats_dup (pm : PacketManager) (seq : Nat)
    (data : List Nat) :
    (pm.handle_recovering_state seq data).2.stats.duplicates
      = pm.stats.duplicates := by
  have hb : ∀ (q : PacketManager) (s : Nat) (d : List Nat),
      (q.buffer_packet s d).stats.duplicates = q.stats.duplicates := by
    intro q s d
    simp only [buffer_packet]; split_ifs <;> rfl
  have hg : ∀ (q : PacketManager) (s e : Nat),
      (q.process_gap_fill s e).stats.duplicates = q.stats.duplicates := by
    intro q s e
    simp only [process_gap_fill]; split_ifs <;> rfl
  simp only [handle_recovering_state]
  split_ifs <;> try simp [hb]
  split
  · split_ifs <;> simp [hg]
  · simp

/-- `mark_seen` of a fresh sequence: the deque gains the sequence at the
back, evicting the front when the window is full; the invariant is kept. -/
theorem mark_seen_fresh (pm : PacketManager) (seq : Nat)
    (hinv : pm.WindowInv) (hfresh : seq ∉ pm.recent_sequences) :
    (pm.mark_seen seq).recent_sequences =
      (if pm.recent_sequences.length + 1 > DUPLICATE_WINDOW_SIZE
       then (pm.recent_sequences ++ [seq]).tail
       else pm.recent_sequences ++ [seq]) ∧
    (pm.mark_seen seq).WindowInv ∧
    seq ∈ (pm.mark_seen seq).recent_seq_set := by
  have hset : seq ∉ pm.recent_seq_set := fun hx => hfresh ((hinv.2 seq).mp hx)
  have hcontains : pm.recent_seq_set.contains seq = false := by
    simpa using hset
  by_cases hlen : pm.recent_sequences.length + 1 > DUPLICATE_WINDOW_SIZE
  · rcases hdq : pm.recent_sequences with _ | ⟨d0, dtl⟩
    · rw [hdq] at hlen
      simp [DUPLICATE_WINDOW_SIZE] at hlen
    · have hnodup := hinv.1
      rw [hdq] at hnodup
      have hd0 : d0 ∉ dtl := (List.nodup_cons.mp hnodup).1
      have hdtl : dtl.Nodup := (List.nodup_cons.mp hnodup).2
      have hseqd0 : seq ≠ d0 := by
        intro h
        exact hfresh (by rw [hdq, h]; exact List.mem_cons_self _ _)
      have hseqdtl : seq ∉ dtl := by
        intro h
        exact hfresh (by rw [hdq]; exact List.mem_cons_of_mem _ h)
      have hlendq : pm.recent_sequences.length = dtl.length + 1 := by
        rw [hdq]; rfl
      simp only [mark_seen, hcontains, Bool.false_eq_true, if_false, hdq,
        List.cons_append, List.length_append, List.length_cons,
        List.length_nil, gt_iff_lt, hlendq]
      split_ifs with hcond
      · refine ⟨by simp, ⟨?_, ?_⟩, ?_⟩
        · simp only []
          rw [List.nodup_append]
          refine ⟨hdtl, List.nodup_singleton seq, ?_⟩
          intro a ha hb
          simp only [List.mem_singleton] at hb
          subst hb
          exact hseqdtl ha
        · intro x
          simp only [List.mem_filter, List.mem_append, List.mem_singleton,
            bne_iff_ne, ne_eq]
          rw [hinv.2 x, hdq]
          simp only [List.mem_cons]
          by_cases hxd0 : x = d0 <;> by_cases hxseq : x = seq <;>
            by_cases hxdtl : x ∈ dtl <;> simp_all
        · simp only [List.mem_append, List.mem_filter, List.mem_singleton,
            bne_iff_ne, ne_eq]
          simp [hseqd0]
      · exfalso
        rw [hlendq] at hlen
        omega
  · have hlenapp : ¬((pm.recent_sequences ++ [seq]).length
        > DUPLICATE_WINDOW_SIZE) := by
      simpa using hlen
    simp only [mark_seen, hcontains, Bool.false_eq_true, if_false,
      List.length_append, List.length_cons, List.length_nil, gt_iff_lt]
    split_ifs with hcond
    · exfalso
      simp only [List.length_append, List.length_cons, List.length_nil,
        gt_iff_lt] at hlenapp
      omega
    · refine ⟨rfl, ⟨?_, ?_⟩, ?_⟩
      · simp only []
        rw [List.nodup_append]
        refine ⟨hinv.1, List.nodup_singleton seq, ?_⟩
        intro a ha hb
        simp only [List.mem_singleton] at hb
        subst hb
        exact hfresh ha
      · intro x
        simp only [List.mem_append, List.mem_singleton]
        rw [hinv.2 x]
      · simp

theorem windowInv_of_eq {x y : PacketManager}
    (hrs : x.recent_sequences = y.recent_sequences)
    (hss : x.recent_seq_set = y.recent_seq_set) (h : y.WindowInv) :
    x.WindowInv := by
  unfold WindowInv at *
  rw [hrs, hss]
  exact h

theorem mark_seen_window_congr (pm pm' : PacketManager) (seq : Nat)
    (hrs : pm.recent_sequences = pm'.recent_sequences)
    (hss : pm.recent_seq_set = pm'.recent_seq_set) :
    (pm.mark_seen seq).recent_sequences
        = (pm'.mark_seen seq).recent_sequences ∧
    (pm.mark_seen seq).recent_seq_set = (pm'.mark_seen seq).recent_seq_set := by
  refine ⟨?_, ?_⟩ <;>
  (simp only [mark_seen, hrs, hss]
   generalize (pm'.recent_sequences ++ [seq] : List Nat) = dq
   cases dq with
   | nil => split_ifs <;> rfl
   | cons a l => split_ifs <;> rfl)

theorem mark_seen_bump_rs (pm : PacketManager) (seq h' : Nat) (st' : Stats)
    (fs : FeedState) :
    (({ pm with state := fs, highest_seq_seen := h', stats := st' }
        : PacketManager).mark_seen seq).recent_sequences
      = (pm.mark_seen seq).recent_sequences :=
  (mark_seen_window_congr
    { pm with state := fs, highest_seq_seen := h', stats := st' } pm seq
    rfl rfl).1

theorem mark_seen_bump_set (pm : PacketManager) (seq h' : Nat) (st' : Stats)
    (fs : FeedState) :
    (({ pm with state := fs, highest_seq_seen := h', stats := st' }
        : PacketManager).mark_seen seq).recent_seq_set
      = (pm.mark_seen seq).recent_seq_set :=
  (mark_seen_window_congr
    { pm with state := fs, highest_seq_seen := h', stats := st' } pm seq
    rfl rfl).2

theorem handle_live_rs (pm : PacketManager) (seq : Nat) (data : List Nat)
    (ts : Nat) :
    (pm.handle_live_state seq data ts).2.recent_sequences
      = pm.recent_sequences := (handle_live_window pm seq data ts).1

theorem handle_live_set (pm : PacketManager) (seq : Nat) (data : List Nat)
    (ts : Nat) :
    (pm.handle_live_state seq data ts).2.recent_seq_set
      = pm.recent_seq_set := (handle_live_window pm seq data ts).2

theorem handle_recovering_rs (pm : PacketManager) (seq : Nat)
    (data : List Nat) :
    (pm.handle_recovering_state seq data).2.recent_sequences
      = pm.recent_sequences := (handle_recovering_window pm seq data).1

theorem handle_recovering_set (pm : PacketManager) (seq : Nat)
    (data : List Nat) :
    (pm.handle_recovering_state seq data).2.recent_seq_set
      = pm.recent_seq_set := (handle_recovering_window pm seq data).2

/-- For a non-duplicate packet, the state dispatch never touches the
duplicate window: the window after `process_packet` is the window after
`mark_seen`. -/
theorem process_packet_window_eq_ms (pm : PacketManager) (seq : Nat)
    (data : List Nat) (ts : Nat) (hdup : pm.is_duplicate seq = false) :
    (pm.process_packet seq data ts).2.recent_sequences
        = (pm.mark_seen seq).recent_sequences ∧
    (pm.process_packet seq data ts).2.recent_seq_set
        = (pm.mark_seen seq).recent_seq_set := by
  have hmem : seq ∉ pm.recent_seq_set := by
    simpa [is_duplicate] using hdup
  rcases Nat.lt_or_ge pm.highest_seq_seen seq with hh | hh
  · cases hst : pm.state <;>
    simp_all [process_packet, is_duplicate, mark_seen_state,
      handle_initial_state, handle_live_rs, handle_live_set,
      handle_recovering_rs, handle_recovering_set, mark_seen_bump_rs,
      mark_seen_bump_set]
  · have hh' : ¬(seq > pm.highest_seq_seen) := Nat.not_lt.mpr hh
    cases hst : pm.state <;>
    (simp only [process_packet]
     rw [if_neg hh']
     simp_all [is_duplicate, mark_seen_state, handle_initial_state,
       handle_live_rs, handle_live_set, handle_recovering_rs,
       handle_recovering_set, mark_seen_bump_rs, mark_seen_bump_set])

theorem process_packet_window_fresh (pm : PacketManager) (seq : Nat)
    (data : List Nat) (ts : Nat) (hinv : pm.WindowInv)
    (hfresh : seq ∉ pm.recent_sequences) :
    (pm.process_packet seq data ts).2.recent_sequences
        = (if pm.recent_sequences.length + 1 > DUPLICATE_WINDOW_SIZE
           then (pm.recent_sequences ++ [seq]).tail
           else pm.recent_sequences ++ [seq]) ∧
    (pm.process_packet seq data ts).2.WindowInv := by
  have hset : seq ∉ pm.recent_seq_set := fun hx => hfresh ((hinv.2 seq).mp hx)
  have hdup : pm.is_duplicate seq = false := by
    simp only [is_duplicate]
    simpa using hset
  obtain ⟨hrs, hss⟩ := process_packet_window_eq_ms pm seq data ts hdup
  obtain ⟨hms, hmsinv, _⟩ := mark_seen_fresh pm seq hinv hfresh
  exact ⟨hrs.trans hms, windowInv_of_eq hrs hss hmsinv⟩

theorem process_packet_duplicates_eq (pm : PacketManager) (seq : Nat)
    (data : List Nat) (ts : Nat) (hdup : pm.is_duplicate seq = false) :
    (pm.process_packet seq data ts).2.stats.duplicates
      = pm.stats.duplicates := by
  have hmem : seq ∉ pm.recent_seq_set := by simpa [is_duplicate] using hdup
  rcases Nat.lt_or_ge pm.highest_seq_seen seq with hh | hh
  · cases hst : pm.state <;>
    simp_all [process_packet, is_duplicate, mark_seen_state, mark_seen_stats,
      handle_initial_state, handle_live_stats_dup, handle_recovering_stats_dup]
  · have hh' : ¬(seq > pm.highest_seq_seen) := Nat.not_lt.mpr hh
    cases hst : pm.state <;>
    (simp only [process_packet]
     rw [if_neg hh']
     simp_all [is_duplicate, mark_seen_state, mark_seen_stats,
       handle_initial_state, handle_live_stats_dup,
       handle_recovering_stats_dup])

/-- Feeding a full window a stream of fresh, distinct sequences slides the
window: the result is the last `DUPLICATE_WINDOW_SIZE` of the combined
history. -/
theorem foldl_process_window (xs : List Nat) :
    ∀ pm : PacketManager, pm.WindowInv →
      pm.recent_sequences.length = DUPLICATE_WINDOW_SIZE →
      xs.Nodup → (∀ x ∈ xs, x ∉ pm.recent_sequences) →
      (xs.foldl (fun s x => (s.process_packet x [] 0).2) pm).WindowInv ∧
      (xs.foldl (fun s x => (s.process_packet x [] 0).2) pm).recent_sequences
        = (pm.recent_sequences ++ xs).drop xs.length ∧
      (xs.foldl (fun s x => (s.process_packet x [] 0).2) pm).recent_sequences.length
        = DUPLICATE_WINDOW_SIZE := by
  induction xs with
  | nil => intro pm hinv hlen _ _; exact ⟨hinv, by simp, hlen⟩
  | cons x rest ih =>
      intro pm hinv hlen hnodup hfresh
      have hx : x ∉ pm.recent_sequences := hfresh x (List.mem_cons_self _ _)
      obtain ⟨hrs, hinv1⟩ := process_packet_window_fresh pm x [] 0 hinv hx
      have hcond : pm.recent_sequences.length + 1 > DUPLICATE_WINDOW_SIZE := by
        rw [hlen]
        omega
      rw [if_pos hcond] at hrs
      rcases hdq : pm.recent_sequences with _ | ⟨d0, dtl⟩
      · rw [hdq] at hlen
        simp [DUPLICATE_WINDOW_SIZE] at hlen
      · have hrs1 : (pm.process_packet x [] 0).2.recent_sequences
            = dtl ++ [x] := by
          rw [hrs, hdq]
          rfl
        have hlen1 : (pm.process_packet x [] 0).2.recent_sequences.length
            = DUPLICATE_WINDOW_SIZE := by
          rw [hrs1]
          rw [hdq] at hlen
          simp only [List.length_cons] at hlen
          simp
          omega
        have hfresh1 : ∀ y ∈ rest,
            y ∉ (pm.process_packet x [] 0).2.recent_sequences := by
          intro y hy
          rw [hrs1]
          simp only [List.mem_append, List.mem_singleton]
          rintro (h1 | h2)
          · exact hfresh y (List.mem_cons_of_mem _ hy)
              (by rw [hdq]; exact List.mem_cons_of_mem _ h1)
          · subst h2
            exact (List.nodup_cons.mp hnodup).1 hy
        obtain ⟨hinv2, hrs2, hlen2⟩ := ih (pm.process_packet x [] 0).2 hinv1
          hlen1 (List.nodup_cons.mp hnodup).2 hfresh1
        refine ⟨?_, ?_, ?_⟩
        · rw [List.foldl_cons]
          exact hinv2
        · rw [List.foldl_cons, hrs2, hrs1]
          simp [List.append_assoc, List.singleton_append, List.length_cons,
            List.drop_succ_cons]
        · rw [List.foldl_cons]
          exact hlen2

end PacketManager


/-- C2 (amended): the receive dispatch of `FeedHandler::run` continues the
loop on a datagram and on an empty poll, but *breaks out of the loop* on a
receive error; consequently the loop returns exactly when the cooperative
running flag is cleared or a transport error occurs — a transport error is
fatal to the ingest loop in this code, contrary to the original claim. -/
theorem c2_amended_loop_control :
    (∀ d, FeedHandler.iterReceive (FeedHandler.RecvResult.dgram d)
        = FeedHandler.LoopAction.cont) ∧
    FeedHandler.iterReceive FeedHandler.RecvResult.empty
      = FeedHandler.LoopAction.cont ∧
    FeedHandler.iterReceive FeedHandler.RecvResult.err
      = FeedHandler.LoopAction.brk ∧
    (∀ (inputs : List FeedHandler.IterInput) (ls : FeedHandler.LoopState),
        (∀ i ∈ inputs, i.running = true ∧ i.recv ≠ FeedHandler.RecvResult.err) →
        (FeedHandler.ingestRun inputs ls).1 = none) := by
  refine ⟨fun d => rfl, rfl, rfl, ?_⟩
  intro inputs
  induction inputs with
  | nil => intro ls h; rfl
  | cons i rest ih =>
      intro ls h
      have hi := h i (List.mem_cons_self i rest)
      simp only [FeedHandler.ingestRun, hi.1]
      rcases hrecv : i.recv with d | _ | _
      · simp only [FeedHandler.iterReceive]
        exact ih _ (fun j hj => h j (List.mem_cons_of_mem i hj))
      · simp only [FeedHandler.iterReceive]
        exact ih _ (fun j hj => h j (List.mem_cons_of_mem i hj))
      · exact absurd hrecv hi.2

/-- C2 witness: one iteration with the flag set and an empty receive does
not make the loop return. -/
theorem c2_amended_witness :
    (∀ i ∈ [({ running := true, now := 0, recv := FeedHandler.RecvResult.empty }
          : FeedHandler.IterInput)],
        i.running = true ∧ i.recv ≠ FeedHandler.RecvResult.err) ∧
    (FeedHandler.ingestRun
        [{ running := true, now := 0, recv := FeedHandler.RecvResult.empty }]
        {}).1 = none :=
  ⟨by decide, c2_amended_loop_control.2.2.2 _ {} (by decide)⟩

/-- C6: `try_push` fails exactly when the refreshed occupancy reaches the
capacity `N`; from empty, `N` pushes succeed, the `(N+1)`st fails, and
after one successful pop exactly one further push succeeds before the
ring is full again. -/
theorem c6_ring_fullness_boundary :
    (∀ (T : Type) (Size : Nat) (q : SPSCQueue T Size) (item : T),
        q.cached_read_pos ≤ q.read_pos → q.read_pos ≤ q.write_pos →
        ((q.try_push item).2 = false ↔ q.write_pos - q.read_pos ≥ Size)) ∧
    (∀ (Size : Nat) (item : Nat), 0 < Size →
        (∀ k, k < Size →
            ((SPSCQueue.iterPush item k (SPSCQueue.emptyQueue Size)).try_push
              item).2 = true) ∧
        ((SPSCQueue.iterPush item Size (SPSCQueue.emptyQueue Size)).try_push
          item).2 = false ∧
        ((SPSCQueue.iterPush item Size
          (SPSCQueue.emptyQueue Size)).try_pop).2.isSome = true ∧
        (((SPSCQueue.iterPush item Size
          (SPSCQueue.emptyQueue Size)).try_pop).1.try_push item).2 = true ∧
        ((((SPSCQueue.iterPush item Size
            (SPSCQueue.emptyQueue Size)).try_pop).1.try_push item).1.try_push
          item).2 = false) :=
  ⟨fun T Size q item h1 h2 => SPSCQueue.try_push_flag_iff T Size q item h1 h2,
   fun Size item hS => SPSCQueue.push_pop_boundary Size item hS⟩

/-- C6 witness: the boundary behaviour at capacity 4 with item 7, and the
fullness criterion on the empty queue. -/
theorem c6_witness :
    (((SPSCQueue.emptyQueue 4).try_push 7).2 = false ↔
        (SPSCQueue.emptyQueue 4).write_pos - (SPSCQueue.emptyQueue 4).read_pos
          ≥ 4) ∧
    ((SPSCQueue.iterPush 7 4 (SPSCQueue.emptyQueue 4)).try_push 7).2 = false :=
  ⟨c6_ring_fullness_boundary.1 Nat 4 (SPSCQueue.emptyQueue 4) 7 (by decide)
      (by decide),
   (c6_ring_fullness_boundary.2 4 7 (by decide)).2.1⟩

/-- C7: `get_ready_packets` returns exactly the payloads of the maximal
consecutive run `next_expected, next_expected+1, …` present in the
reorder buffer, in ascending order, advances `next_expected` and the
`resequenced` counter by the run length, removes exactly the run from the
buffer (all other entries untouched, order preserved), stops at the first
missing sequence, and leaves the feed state unchanged. -/
theorem c7_drain_maximal_run :
    ∀ pm : PacketManager, ∃ k : Nat,
      (∀ i, i < k →
        (pm.next_expected_seq + i) ∈ pm.resequence_buffer.map Prod.fst) ∧
      ((pm.next_expected_seq + k) ∉ pm.resequence_buffer.map Prod.fst) ∧
      (pm.get_ready_packets).1 = (List.range k).map
        (fun i => (PacketManager.mapFind? pm.resequence_buffer
          (pm.next_expected_seq + i)).getD []) ∧
      (pm.get_ready_packets).2.next_expected_seq = pm.next_expected_seq + k ∧
      (pm.get_ready_packets).2.stats.resequenced = pm.stats.resequenced + k ∧
      (pm.get_ready_packets).2.resequence_buffer = pm.resequence_buffer.filter
        (fun p => decide (p.1 < pm.next_expected_seq ∨
          pm.next_expected_seq + k ≤ p.1)) ∧
      (pm.get_ready_packets).2.state = pm.state := by
  intro pm
  obtain ⟨k, h1, h2, h3⟩ := PacketManager.drainLoop_spec
    pm.resequence_buffer.length pm.next_expected_seq pm.resequence_buffer
    pm.stats.resequenced le_rfl
  refine ⟨k, h1, h2, ?_, ?_, ?_, ?_, ?_⟩ <;>
    simp only [PacketManager.get_ready_packets, h3]

/-- C7 witness: a concrete buffer `{3, 4, 7}` with `next_expected = 3`:
the theorem instantiates (the run is `3,4`, stopping at the missing 5). -/
theorem c7_witness :
    ∃ k : Nat,
      (∀ i, i < k → (c7_state.next_expected_seq + i)
          ∈ c7_state.resequence_buffer.map Prod.fst) ∧
      ((c7_state.next_expected_seq + k)
          ∉ c7_state.resequence_buffer.map Prod.fst) ∧
      (c7_state.get_ready_packets).1 = (List.range k).map
        (fun i => (PacketManager.mapFind? c7_state.resequence_buffer
          (c7_state.next_expected_seq + i)).getD []) ∧
      (c7_state.get_ready_packets).2.next_expected_seq
          = c7_state.next_expected_seq + k ∧
      (c7_state.get_ready_packets).2.stats.resequenced
          = c7_state.stats.resequenced + k ∧
      (c7_state.get_ready_packets).2.resequence_buffer
          = c7_state.resequence_buffer.filter
              (fun p => decide (p.1 < c7_state.next_expected_seq ∨
                c7_state.next_expected_seq + k ≤ p.1)) ∧
      (c7_state.get_ready_packets).2.state = c7_state.state :=
  c7_drain_maximal_run c7_state

/-- C8: a sequence already in the duplicate window is dropped with the
`duplicates` counter incremented and the window untouched; a fresh
sequence is inserted, evicting the oldest entry once the window exceeds
`DUPLICATE_WINDOW_SIZE = 10000`; and after 10000 further distinct fresh
sequences an element of the old (full) window has been evicted, so its
re-arrival is not counted as a duplicate. -/
theorem c8_duplicate_window_policy :
    (∀ (pm : PacketManager) (seq : Nat) (data : List Nat) (ts : Nat),
        pm.is_duplicate seq = true →
        (pm.process_packet seq data ts).1 = false ∧
        (pm.process_packet seq data ts).2.stats.duplicates
            = pm.stats.duplicates + 1 ∧
        (pm.process_packet seq data ts).2.recent_sequences
            = pm.recent_sequences ∧
        (pm.process_packet seq data ts).2.recent_seq_set
            = pm.recent_seq_set) ∧
    (∀ (pm : PacketManager) (seq : Nat), pm.WindowInv →
        seq ∉ pm.recent_sequences →
        seq ∈ (pm.mark_seen seq).recent_seq_set ∧
        (pm.mark_seen seq).recent_sequences =
          (if pm.recent_sequences.length + 1 > DUPLICATE_WINDOW_SIZE
           then (pm.recent_sequences ++ [seq]).tail
           else pm.recent_sequences ++ [seq])) ∧
    (∀ (pm : PacketManager) (xs : List Nat) (f : Nat),
        pm.WindowInv →
        pm.recent_sequences.length = DUPLICATE_WINDOW_SIZE →
        xs.Nodup → xs.length = DUPLICATE_WINDOW_SIZE →
        (∀ x ∈ xs, x ∉ pm.recent_sequences) →
        f ∈ pm.recent_sequences → f ∉ xs →
        (xs.foldl (fun s x => (s.process_packet x [] 0).2) pm).is_duplicate f
            = false ∧
        ((xs.foldl (fun s x => (s.process_packet x [] 0).2) pm).process_packet
            f [] 0).2.stats.duplicates
          = (xs.foldl (fun s x => (s.process_packet x [] 0).2) pm).stats.duplicates) := by
  refine ⟨?_, ?_, ?_⟩
  · intro pm seq data ts hdup
    have hmem : seq ∈ pm.recent_seq_set := by
      simpa [PacketManager.is_duplicate] using hdup
    rcases Nat.lt_or_ge pm.highest_seq_seen seq with hh | hh
    · simp_all [PacketManager.process_packet, PacketManager.is_duplicate]
    · have hh' : ¬(seq > pm.highest_seq_seen) := Nat.not_lt.mpr hh
      simp only [PacketManager.process_packet]
      rw [if_neg hh']
      simp_all [PacketManager.is_duplicate]
  · intro pm seq hinv hfresh
    obtain ⟨h1, _, h3⟩ := PacketManager.mark_seen_fresh pm seq hinv hfresh
    exact ⟨h3, h1⟩
  · intro pm xs f hinv hlen hnd hxlen hfr hf hfx
    obtain ⟨hinv', hrs', _⟩ :=
      PacketManager.foldl_process_window xs pm hinv hlen hnd hfr
    have hxs : (xs.foldl (fun s x => (s.process_packet x [] 0).2)
        pm).recent_sequences = xs := by
      rw [hrs', show xs.length = pm.recent_sequences.length from by omega,
        List.drop_left]
    have hnotin : f ∉ (xs.foldl (fun s x => (s.process_packet x [] 0).2)
        pm).recent_sequences := by
      rw [hxs]
      exact hfx
    have hdup : (xs.foldl (fun s x => (s.process_packet x [] 0).2)
        pm).is_duplicate f = false := by
      have hs : f ∉ (xs.foldl (fun s x => (s.process_packet x [] 0).2)
          pm).recent_seq_set := fun hx => hnotin ((hinv'.2 f).mp hx)
      simpa [PacketManager.is_duplicate] using hs
    exact ⟨hdup, PacketManager.process_packet_duplicates_eq _ f [] 0 hdup⟩

/-- C8 witness: a window holding just `5` drops a second `5`, counting it
as a duplicate and leaving the window unchanged. -/
theorem c8_witness :
    ({ recent_sequences := [5], recent_seq_set := [5] } :
        PacketManager).is_duplicate 5 = true ∧
    (({ recent_sequences := [5], recent_seq_set := [5] } :
        PacketManager).process_packet 5 [] 0).1 = false ∧
    (({ recent_sequences := [5], recent_seq_set := [5] } :
        PacketManager).process_packet 5 [] 0).2.stats.duplicates
      = ({ recent_sequences := [5], recent_seq_set := [5] } :
        PacketManager).stats.duplicates + 1 :=
  ⟨by decide,
   (c8_duplicate_window_policy.1 _ 5 [] 0 (by decide)).1,
   (c8_duplicate_window_policy.1 _ 5 [] 0 (by decide)).2.1⟩

/-- One `periodic_maintenance` tick on a manager with a single timed-out
pending gap: retry while `retry_count < MAX_RETRIES`, else escalate to
`Stale`. -/
theorem c9_single_gap_maintenance :
    ∀ (pm : PacketManager) (g : GapFillRequest) (now : Nat),
      pm.pending_gaps = [g] →
      now > g.request_time_ns + GAP_TIMEOUT_NS →
      (g.retry_count < MAX_RETRIES →
        pm.periodic_maintenance now =
          { pm with
              pending_gaps := [{ g with
                retry_count := g.retry_count + 1
                request_time_ns := now }]
              emitted := pm.emitted ++ [{ g with
                retry_count := g.retry_count + 1
                request_time_ns := now }] }) ∧
      (¬(g.retry_count < MAX_RETRIES) →
        pm.periodic_maintenance now = { pm with state := FeedState.STALE }) := by
  intro pm g now hg hnow
  constructor
  · intro hretry
    simp [PacketManager.periodic_maintenance, hg, PacketManager.maintainGap,
      if_pos hretry]
    rw [if_pos (by omega : now - g.request_time_ns > GAP_TIMEOUT_NS)]
    simp [hretry]
  · intro hretry
    simp [PacketManager.periodic_maintenance, hg, PacketManager.maintainGap]
    rw [if_pos (by omega : now - g.request_time_ns > GAP_TIMEOUT_NS)]
    simp [hretry]

/-- C9: a pending gap whose request has aged beyond `GAP_TIMEOUT_NS` is
retried by `periodic_maintenance` while `retry_count < MAX_RETRIES`
(callback re-emitted, timestamp refreshed, counter bumped) and escalates
the feed to `Stale` afterwards; over the `1,2,5` scenario with four
spaced maintenance ticks the callback fires exactly
`1 + MAX_RETRIES = 4` times before the feed is `Stale`. -/
theorem c9_full_escalation :
    (∀ (pm : PacketManager) (g : GapFillRequest) (now : Nat),
        pm.pending_gaps = [g] →
        now > g.request_time_ns + GAP_TIMEOUT_NS →
        (g.retry_count < MAX_RETRIES →
          pm.periodic_maintenance now =
            { pm with
                pending_gaps := [{ g with
                  retry_count := g.retry_count + 1
                  request_time_ns := now }]
                emitted := pm.emitted ++ [{ g with
                  retry_count := g.retry_count + 1
                  request_time_ns := now }] }) ∧
        (¬(g.retry_count < MAX_RETRIES) →
          pm.periodic_maintenance now = { pm with state := FeedState.STALE })) ∧
    (c9_scenario.state = FeedState.STALE ∧
     c9_scenario.emitted.length = 1 + MAX_RETRIES ∧
     c9_scenario.pending_gaps =
       [{ start_seq := 3, end_seq := 4, request_time_ns := 6000000000,
          retry_count := 3 }]) :=
  ⟨c9_single_gap_maintenance, by decide⟩

/-- C9 witness: a single pending gap `(3,4)` requested at time 0, tick at
2 s: the request is retried with the timestamp refreshed and the retry
counter bumped, and the callback fires. -/
theorem c9_witness :
    ({ pending_gaps := [⟨3, 4, 0, 0⟩] } : PacketManager).periodic_maintenance
        2000000000 =
      { ({ pending_gaps := [⟨3, 4, 0, 0⟩] } : PacketManager) with
          pending_gaps := [⟨3, 4, 2000000000, 1⟩]
          emitted := ({ pending_gaps := [⟨3, 4, 0, 0⟩] } :
            PacketManager).emitted ++ [⟨3, 4, 2000000000, 1⟩] } :=
  (c9_full_escalation.1 _ ⟨3, 4, 0, 0⟩ 2000000000 rfl (by decide)).1 (by decide)

/-- C10: `FeedHandler::process_packet` discards every datagram shorter
than `sizeof(MarketDataPacket)` = 12 (header) + 256 (full payload union)
= 268 bytes before the packet manager is consulted — even one carrying a
complete header and `payload_size` bytes of payload — and only datagrams
of at least 268 bytes ever reach the packet manager. -/
theorem c10_short_datagram_dropped :
    (∀ (pm : PacketManager) (d : Datagram) (ts : Nat),
        12 ≤ d.bytes.length →
        12 + d.payload_size ≤ d.bytes.length →
        d.bytes.length < sizeof_MarketDataPacket →
        FeedHandler.process_packet pm d ts = (pm, none)) ∧
    (∀ (pm : PacketManager) (d : Datagram) (ts : Nat) (b : Bool),
        (FeedHandler.process_packet pm d ts).2 = some b →
        sizeof_MarketDataPacket ≤ d.bytes.length) ∧
    sizeof_MarketDataPacket = 268 := by
  refine ⟨?_, ?_, rfl⟩
  · intro pm d ts h1 h2 h3
    simp [FeedHandler.process_packet, h3]
  · intro pm d ts b h
    by_cases hlen : d.bytes.length < sizeof_MarketDataPacket
    · simp [FeedHandler.process_packet, hlen] at h
    · omega

/-- C10 witness: a 100-byte datagram with a complete header and a 50-byte
payload is dropped without touching the packet manager. -/
theorem c10_witness :
    12 ≤ (List.replicate 100 0).length ∧
    12 + 50 ≤ (List.replicate 100 0).length ∧
    (List.replicate 100 0).length < sizeof_MarketDataPacket ∧
    FeedHandler.process_packet {} ⟨List.replicate 100 0, 1, 50⟩ 0
      = ({}, none) :=
  ⟨by decide, by decide, by decide,
   c10_short_datagram_dropped.1 {} ⟨List.replicate 100 0, 1, 50⟩ 0
     (by decide) (by decide) (by decide)⟩

end HFT
